import Mathlib

/-!
Verification development for the jaxOS repository.

The repository is a Python desktop shell whose kernel decodes LLM output
into system calls.  We shallowly embed the relevant code:

* `src/kernel/intent_parser.py` — the `IntentParser` class (`parse`,
  `_extract_json`, `valid_actions`);
* `src/kernel/main.py` — the `NeuralKernel` state (`log`, `launch_app`,
  `close_app`, `execute_syscall`, the `self.apps` registry);
* `src/fs/db.py` — the `files` table operations (`write_file`,
  `read_file`, `delete_file`, `list_files`).

Python strings are modelled as `List Char`; JSON values as the inductive
`JVal`; Python dicts produced by `json.loads` as association lists with
first-occurrence key positions and update-in-place assignment, which is
exactly the CPython dict behaviour for string keys.  `json.loads` is
modelled by an executable recursive-descent parser `jsonLoads` covering
the JSON subset exercised by the program (no floats, no \u escapes; a
candidate outside the subset simply fails to parse, shrinking the domain
of parse-success hypotheses but never changing a successful result).
Python exceptions are modelled with `Except`/explicit error strings; the
message text mirrors CPython messages.
-/

namespace JaxOS

/-- JSON values as produced by `json.loads`.  Numbers are restricted to
integers (the program never manipulates numeric fields). -/
inductive JVal where
  | jnull : JVal
  | jbool : Bool → JVal
  | jnum : Int → JVal
  | jstr : String → JVal
  | jarr : List JVal → JVal
  | jobj : List (String × JVal) → JVal

/-- A Python dict with string keys, as an insertion-ordered association
list without duplicate keys. -/
abbrev PyDict := List (String × JVal)

/-- First value bound to `k`, mirroring Python `d[k]` / `d.get(k)`. -/
def dictGet : PyDict → String → Option JVal
  | [], _ => none
  | (k, v) :: rest, key => if k = key then some v else dictGet rest key

/-- Python `k in d`. -/
def dictContains (d : PyDict) (key : String) : Bool :=
  (dictGet d key).isSome

/-- Python `d[k] = v`: update in place if the key exists (keeping its
position), otherwise append at the end. -/
def dictSet : PyDict → String → JVal → PyDict
  | [], key, v => [(key, v)]
  | (k, w) :: rest, key, v =>
    if k = key then (k, v) :: rest else (k, w) :: dictSet rest key v

/-- Python `any(e == "s" for e in xs)`, i.e. `"s" in xs` for a list:
only string elements can compare equal to a string. -/
def listHasStr : List JVal → String → Bool
  | [], _ => false
  | .jstr t :: rest, s => if t = s then true else listHasStr rest s
  | _ :: rest, s => listHasStr rest s

/-- Python `type(v).__name__` for the values `json.loads` can return. -/
def pyTypeName : JVal → String
  | .jnull => "NoneType"
  | .jbool _ => "bool"
  | .jnum _ => "int"
  | .jstr _ => "str"
  | .jarr _ => "list"
  | .jobj _ => "dict"

/-- Single-quote character (apostrophe). -/
def sq : String := String.singleton (Char.ofNat 39)

/-- Python `repr` of a JSON value (string escaping inside `repr` is not
modelled; the program never inspects these rendered strings). -/
def pyRepr : JVal → String
  | .jnull => "None"
  | .jbool true => "True"
  | .jbool false => "False"
  | .jnum n => toString n
  | .jstr s => sq ++ s ++ sq
  | .jarr xs =>
    "[" ++ String.intercalate ", " (xs.attach.map (fun x => pyRepr x.1)) ++ "]"
  | .jobj kvs =>
    "\x7b" ++
      String.intercalate ", "
        (kvs.attach.map (fun p => sq ++ p.1.1 ++ sq ++ ": " ++ pyRepr p.1.2)) ++
      "\x7d"
termination_by v => sizeOf v
decreasing_by
  · have := List.sizeOf_lt_of_mem x.2
    simp only [JVal.jarr.sizeOf_spec]
    omega
  · have h1 := List.sizeOf_lt_of_mem p.2
    have h2 : sizeOf p.1.2 < sizeOf p.1 := by
      obtain ⟨a, b⟩ := p.1
      simp only [Prod.mk.sizeOf_spec]
      omega
    simp only [JVal.jobj.sizeOf_spec]
    omega

/-- Python `str(v)` as used by f-strings: a `str` is inserted verbatim,
anything else through `repr`-style rendering. -/
def pyStr (v : JVal) : String :=
  match v with
  | .jstr s => s
  | v => pyRepr v

/-- Python `str(o)` where `o` may be `None` (e.g. `intent.get("action")`). -/
def pyStrOpt : Option JVal → String
  | none => "None"
  | some v => pyStr v

/-! ### Python string helpers (on `List Char`) -/

/-- The whitespace set of Python `str.strip()` (ASCII subset; the
program only ever deals with ASCII whitespace). -/
def pyIsSpace (c : Char) : Bool :=
  c = ' ' || c = '\t' || c = '\n' || c = '\r' || c = '\x0b' || c = '\x0c'

/-- Python `text.strip()`. -/
def pyStrip (l : List Char) : List Char :=
  ((l.dropWhile pyIsSpace).reverse.dropWhile pyIsSpace).reverse

/-- Leftmost index `≥ i` at which `needle` occurs in `hay`, counting
from `i` at the head of `hay`; `none` when absent (Python `find` = -1). -/
def findSubAux (needle : List Char) : List Char → Nat → Option Nat
  | hay@([]), i => if needle.isPrefixOf hay then some i else none
  | hay@(_ :: rest), i =>
    if needle.isPrefixOf hay then some i else findSubAux needle rest (i + 1)

/-- Python `hay.find(needle)`. -/
def findSub (hay needle : List Char) : Option Nat :=
  findSubAux needle hay 0

/-- Python `hay.find(needle, start)`. -/
def findFrom (hay needle : List Char) (start : Nat) : Option Nat :=
  (findSubAux needle (hay.drop start) 0).map (· + start)

/-- Python `needle in hay` for strings (substring test). -/
def isSubStr (needle hay : List Char) : Bool :=
  (findSub hay needle).isSome

/-- Python `hay.rfind(c)` for a single character. -/
def rfindChar (hay : List Char) (c : Char) : Option Nat :=
  match findSub hay.reverse [c] with
  | some k => some (hay.length - 1 - k)
  | none => none

/-- Python slice `t[a:b]` for `0 ≤ a`, clamping like Python does. -/
def pySlice (t : List Char) (a b : Nat) : List Char :=
  (t.drop a).take (b - a)

/-- Python `s.split(c)` for a single-character separator (keeps empty
segments; `"".split(c) == [""]`). -/
def splitChar : List Char → Char → List (List Char)
  | [], _ => [[]]
  | ch :: rest, c =>
    if ch = c then [] :: splitChar rest c
    else
      match splitChar rest c with
      | h :: t => (ch :: h) :: t
      | [] => [[ch]]

/-- Python `message.split(sep)` on `String`s, single-char separator. -/
def pySplit (s : String) (c : Char) : List String :=
  (splitChar s.toList c).map (fun l => String.mk l)

/-- Python `s.strip()` on `String`s. -/
def pyStripStr (s : String) : String :=
  String.mk (pyStrip s.toList)

/-- Python `s.lower()` (ASCII). -/
def pyLower (s : String) : String :=
  String.mk (s.toList.map Char.toLower)

/-- Python `s.replace(" ", "_")` (single-character replacement). -/
def pyReplaceChar (s : String) (from_ to_ : Char) : String :=
  String.mk (s.toList.map (fun c => if c = from_ then to_ else c))

/-! ### `IntentParser._extract_json` (src/kernel/intent_parser.py:77-100) -/

/-- Backtick. -/
def btChar : Char := Char.ofNat 96

/-- Opening brace. -/
def lbrace : Char := Char.ofNat 123

/-- Closing brace. -/
def rbrace : Char := Char.ofNat 125

/-- The three-backtick fence marker. -/
def bt3 : List Char := [btChar, btChar, btChar]

/-- The tagged fence marker, Python literal of length 7. -/
def btJson : List Char := bt3 ++ ['j', 's', 'o', 'n']

/-- The literal fallback text `"{}"`. -/
def emptyObjText : List Char := [lbrace, rbrace]

/-- The brace-scan fallback of `_extract_json`: first `{`, last `}`,
their span when properly ordered, else the literal `"{}"`. -/
def braceFallback (t : List Char) : List Char :=
  match findSub t [lbrace], rfindChar t rbrace with
  | some i, some j => if i < j then pySlice t i (j + 1) else emptyObjText
  | _, _ => emptyObjText

/-- Model of `IntentParser._extract_json`: strip, prefer a `json`-tagged fence,
then an untagged fence, then the brace scan.  Note the Python
`if/elif` shape: when the tagged opener is present but unterminated the
untagged branch is skipped and control falls through to the brace scan. -/
def extract_json (text : List Char) : List Char :=
  let t := pyStrip text
  match findSub t btJson with
  | some i =>
    match findFrom t bt3 (i + 7) with
    | some e => pyStrip (pySlice t (i + 7) e)
    | none => braceFallback t
  | none =>
    match findSub t bt3 with
    | some i =>
      match findFrom t bt3 (i + 3) with
      | some e => pyStrip (pySlice t (i + 3) e)
      | none => braceFallback t
    | none => braceFallback t

/-! ### `json.loads` model -/

/-- JSON structural whitespace. -/
def jsonWs (c : Char) : Bool :=
  c = ' ' || c = '\t' || c = '\n' || c = '\r'

/-- Skip JSON whitespace. -/
def skipWs (cs : List Char) : List Char :=
  cs.dropWhile jsonWs

/-- JSON escape characters (the `\uXXXX` form is outside the modelled
subset and is rejected, as are unknown escapes — the latter matching
`json.loads`). -/
def escChar (e : Char) : Option Char :=
  if e = 'n' then some '\n'
  else if e = 't' then some '\t'
  else if e = 'r' then some '\r'
  else if e = 'b' then some '\x08'
  else if e = 'f' then some '\x0c'
  else if e = '"' || e = '\\' || e = '/' then some e
  else none

/-- Parse the body of a JSON string after the opening quote.  Raw
control characters are rejected (`json.loads` default strictness). -/
def pJStr : Nat → List Char → Option (List Char × List Char)
  | 0, _ => none
  | f + 1, cs =>
    match cs with
    | [] => none
    | c :: rest =>
      if c = '"' then some ([], rest)
      else if c = '\\' then
        match rest with
        | [] => none
        | e :: rest2 =>
          match escChar e with
          | some d => (pJStr f rest2).map (fun p => (d :: p.1, p.2))
          | none => none
      else if c.toNat < 32 then none
      else (pJStr f rest).map (fun p => (c :: p.1, p.2))

/-- Digit run to a natural number. -/
def digitsToNat (ds : List Char) : Nat :=
  ds.foldl (fun a c => a * 10 + (c.toNat - 48)) 0

/-- Parse an unsigned JSON integer: a digit run without a redundant
leading zero, not followed by a fraction or exponent marker (floats are
outside the modelled subset and rejected). -/
def pNumCore (cs1 : List Char) : Option (Nat × List Char) :=
  let ds := cs1.takeWhile Char.isDigit
  if ds.isEmpty then none
  else if 1 < ds.length && ds.headD 'x' = '0' then none
  else
    let rest := cs1.dropWhile Char.isDigit
    let stop : Bool :=
      match rest with
      | c :: _ => c = '.' || c = 'e' || c = 'E'
      | [] => false
    if stop then none else some (digitsToNat ds, rest)

/-- Parse a JSON integer with an optional leading minus sign. -/
def pNum (cs : List Char) : Option (Int × List Char) :=
  match cs with
  | '-' :: tl => (pNumCore tl).map (fun p => (-(p.1 : Int), p.2))
  | _ => (pNumCore cs).map (fun p => ((p.1 : Int), p.2))

/-- Recursive-descent JSON value parser.  After the first member of an
object (resp. element of an array) followed by a comma, the remainder is
parsed by re-entering the parser on the remainder with a reopened
bracket, and the results are merged with dict semantics (duplicate keys:
last value, first position — CPython `json.loads` behaviour).  The fuel
`cs.length + 1` always suffices: every recursive call consumes strictly
more characters than it re-adds. -/
def pVal : Nat → List Char → Option (JVal × List Char)
  | 0, _ => none
  | f + 1, cs0 =>
    match skipWs cs0 with
    | [] => none
    | c :: rest =>
      if c = lbrace then
        match skipWs rest with
        | [] => none
        | rc :: rr =>
          if rc = rbrace then some (.jobj [], rr)
          else if rc = '"' then
            match pJStr f rr with
            | none => none
            | some (key, r3) =>
              match skipWs r3 with
              | ':' :: r4 =>
                match pVal f r4 with
                | none => none
                | some (v, r5) =>
                  match skipWs r5 with
                  | ',' :: r6 =>
                    match skipWs r6 with
                    | [] => none
                    | d :: _ =>
                      if d = rbrace then none
                      else
                        match pVal f (lbrace :: r6) with
                        | some (.jobj restObj, r7) =>
                          some (.jobj (restObj.foldl
                            (fun d p => dictSet d p.1 p.2)
                            [(String.mk key, v)]), r7)
                        | _ => none
                  | rbr :: r6 =>
                    if rbr = rbrace then some (.jobj [(String.mk key, v)], r6)
                    else none
                  | [] => none
              | _ => none
          else none
      else if c = '[' then
        match skipWs rest with
        | [] => none
        | rc :: rr =>
          if rc = ']' then some (.jarr [], rr)
          else
            match pVal f (rc :: rr) with
            | none => none
            | some (v, r5) =>
              match skipWs r5 with
              | ',' :: r6 =>
                match skipWs r6 with
                | [] => none
                | d :: _ =>
                  if d = ']' then none
                  else
                    match pVal f ('[' :: r6) with
                    | some (.jarr restArr, r7) => some (.jarr (v :: restArr), r7)
                    | _ => none
              | ']' :: r6 => some (.jarr [v], r6)
              | _ => none
      else if c = '"' then
        (pJStr f rest).map (fun p => (.jstr (String.mk p.1), p.2))
      else if c = 't' then
        if ['t', 'r', 'u', 'e'].isPrefixOf (c :: rest) then
          some (.jbool true, rest.drop 3)
        else none
      else if c = 'f' then
        if ['f', 'a', 'l', 's', 'e'].isPrefixOf (c :: rest) then
          some (.jbool false, rest.drop 4)
        else none
      else if c = 'n' then
        if ['n', 'u', 'l', 'l'].isPrefixOf (c :: rest) then
          some (.jnull, rest.drop 3)
        else none
      else if c = '-' || c.isDigit then
        (pNum (c :: rest)).map (fun p => (.jnum p.1, p.2))
      else none

/-- Model of `json.loads`: parse one value, allow only trailing whitespace. -/
def jsonLoads (cs : List Char) : Option JVal :=
  match pVal (cs.length + 1) cs with
  | some (v, rest) => if (skipWs rest).isEmpty then some v else none
  | none => none

/-! ### `IntentParser` (src/kernel/intent_parser.py) -/

namespace IntentParser

/-- The set `self.valid_actions` from `IntentParser.__init__`
(src/kernel/intent_parser.py:21-30).  Note: `launch_app` is absent. -/
def valid_actions : List String :=
  ["create_file", "read_file", "delete_file", "list_files",
   "system_status", "browse", "unknown"]

/-- The dict `\x7b"action": "unknown", "reason": r\x7d` returned on the
rejection and exception paths of `parse`. -/
def unknownDict (r : String) : PyDict :=
  [("action", .jstr "unknown"), ("reason", .jstr r)]

/-- CPython message of the TypeError raised by `x in v` when `v` is
not a container (argument of type ... is not iterable). -/
def notIterMsg (ty : String) : String :=
  "argument of type \x27" ++ ty ++ "\x27 is not iterable"

/-- The `intent`→`action` alias normalization
(src/kernel/intent_parser.py:48-49). -/
def aliasIntent (kvs : PyDict) : PyDict :=
  if dictContains kvs "intent" && !dictContains kvs "action" then
    dictSet kvs "action" ((dictGet kvs "intent").getD .jnull)
  else kvs

/-- The params synthesized from the remaining top-level fields when no
`params` field exists (src/kernel/intent_parser.py:55-57). -/
def inferParams (kvs : PyDict) : PyDict :=
  kvs.filter (fun p => !(p.1 = "action") && !(p.1 = "intent"))

/-- Install the synthesized params when absent
(src/kernel/intent_parser.py:55-57). -/
def ensureParams (kvs : PyDict) : PyDict :=
  if !dictContains kvs "params" then
    dictSet kvs "params" (.jobj (inferParams kvs))
  else kvs

/-- One alias-normalization step on the params value, mirroring
`if src in intent["params"] and dst not in intent["params"]:
intent["params"][dst] = intent["params"][src]`
(src/kernel/intent_parser.py:60-65).  On a non-dict params value the
Python membership test or item assignment raises; the `TypeError` text
is returned as the error. -/
def aliasStep (p : JVal) (src dst : String) : Except String JVal :=
  match p with
  | .jobj d =>
    if dictContains d src && !dictContains d dst then
      .ok (.jobj (dictSet d dst ((dictGet d src).getD .jnull)))
    else .ok (.jobj d)
  | .jstr s =>
    if isSubStr src.toList s.toList && !isSubStr dst.toList s.toList then
      .error "string indices must be integers"
    else .ok (.jstr s)
  | .jarr xs =>
    if listHasStr xs src && !listHasStr xs dst then
      .error ("list indices must be integers or slices, not str")
    else .ok (.jarr xs)
  | v => .error (notIterMsg (pyTypeName v))

/-- The full alias table applied to the params value
(src/kernel/intent_parser.py:60-65). -/
def aliasParams (p : JVal) : Except String JVal :=
  (aliasStep p "filename" "path").bind fun p1 =>
    (aliasStep p1 "file_content" "content").bind fun p2 =>
      aliasStep p2 "website" "url"

/-- Python set membership in `self.valid_actions` for a hashable value:
only a string can equal one of the whitelist strings. -/
def isValidAction : JVal → Bool
  | .jstr s => valid_actions.contains s
  | _ => false

/-- Values on which Python `v in set` raises `TypeError: unhashable`. -/
def isUnhashable : JVal → Bool
  | .jarr _ => true
  | .jobj _ => true
  | _ => false

/-- The body of `parse` once `json.loads` produced a dict
(src/kernel/intent_parser.py:47-70).  Exceptions from the params alias
mapping or from the hashability of the action value land in the generic
`except Exception` handler, which returns `str(e)` as the reason
(src/kernel/intent_parser.py:74-75). -/
def parseDict (kvs0 : PyDict) : PyDict :=
  let kvs1 := aliasIntent kvs0
  if !dictContains kvs1 "action" then unknownDict "Missing \x27action\x27 field"
  else
    let kvs2 := ensureParams kvs1
    match aliasParams ((dictGet kvs2 "params").getD .jnull) with
    | .error e => unknownDict e
    | .ok pv =>
      let kvs3 := dictSet kvs2 "params" pv
      let av := (dictGet kvs3 "action").getD .jnull
      if isUnhashable av then
        unknownDict ("unhashable type: \x27" ++ pyTypeName av ++ "\x27")
      else if isValidAction av then kvs3
      else unknownDict ("Invalid action: " ++ pyStr av)

/-- The body of `parse` when `json.loads` produced a non-dict value.
Every path raises (`in`, item assignment, `.items()`, subscripting) or
returns the missing-action rejection; the raised message is produced by
CPython and caught by the generic handler.  For a string the membership
tests are substring tests; for a list they are element-equality tests. -/
def parseNonDict : JVal → PyDict
  | .jstr s =>
    if isSubStr "intent".toList s.toList && !isSubStr "action".toList s.toList then
      unknownDict "string indices must be integers"
    else if !isSubStr "action".toList s.toList then
      unknownDict "Missing \x27action\x27 field"
    else if !isSubStr "params".toList s.toList then
      unknownDict "\x27str\x27 object has no attribute \x27items\x27"
    else
      unknownDict "string indices must be integers"
  | .jarr xs =>
    if listHasStr xs "intent" && !listHasStr xs "action" then
      unknownDict "list indices must be integers or slices, not str"
    else if !listHasStr xs "action" then
      unknownDict "Missing \x27action\x27 field"
    else if !listHasStr xs "params" then
      unknownDict "\x27list\x27 object has no attribute \x27items\x27"
    else
      unknownDict "list indices must be integers or slices, not str"
  | v => unknownDict (notIterMsg (pyTypeName v))

/-- Model of `IntentParser.parse` (src/kernel/intent_parser.py:32-75): extract
the candidate, `json.loads` it (failure: the `JSONDecodeError` handler),
then normalize and validate.  Total — the Python function never lets an
exception escape. -/
def parse (llm_response : List Char) : PyDict :=
  match jsonLoads (extract_json llm_response) with
  | none => unknownDict "Malformed JSON response"
  | some (.jobj kvs) => parseDict kvs
  | some v => parseNonDict v

end IntentParser

/-! ### `Database` file operations (src/fs/db.py)

The `files` table has a `UNIQUE NOT NULL` path column; we model it as an
association list of `(path, content)` rows in insertion order, with at
most one row per path.  Driver-level failures (the `except` branches)
and non-text parameter bindings are outside the modelled subset; on the
modelled inputs the SQL statements cannot fail. -/

namespace Database

/-- The row update performed by `INSERT ... ON CONFLICT(path) DO UPDATE
SET content = excluded.content`: replace the content of the existing row
in place, else append a new row. -/
def upsert : List (String × String) → String → String → List (String × String)
  | [], path, content => [(path, content)]
  | (p, c) :: rest, path, content =>
    if p = path then (p, content) :: rest
    else (p, c) :: upsert rest path content

/-- Model of `Database.write_file` (src/fs/db.py:47-61): upsert and report
success.  The `False` branch corresponds to a raised sqlite error, which
cannot happen for the modelled statement. -/
def write_file (files : List (String × String)) (path content : String) :
    Bool × List (String × String) :=
  (true, upsert files path content)

/-- Model of `Database.read_file` (src/fs/db.py:63-67): `SELECT content FROM
files WHERE path = ?` — at most one row by uniqueness. -/
def read_file : List (String × String) → String → Option String
  | [], _ => none
  | (p, c) :: rest, path => if p = path then some c else read_file rest path

/-- Model of `Database.delete_file` (src/fs/db.py:69-77): delete the row and
report whether a row was deleted (`rowcount > 0`). -/
def delete_file (files : List (String × String)) (path : String) :
    Bool × List (String × String) :=
  let remaining := files.filter (fun r => !(r.1 = path))
  (remaining.length < files.length, remaining)

/-- Model of `Database.list_files` (src/fs/db.py:79-82). -/
def list_files (files : List (String × String)) : List String :=
  files.map Prod.fst

end Database

/-! ### `NeuralKernel` state (src/kernel/main.py)

The fields of the kernel object that the claims are about.  Rendering
(`render_ui`, the Tk renderer) only draws; it is not part of the state.
App objects (`apps/base.py`) carry their `is_active` flag and widget
list; start/stop hook invocations are recorded in trace lists so that
"the stop hook was invoked n times" is statable. -/

/-- An `App` object (apps/base.py): `is_active` and `widgets`.  Widget
construction in `build_ui` is display-layer and out of modelled scope;
`on_start` sets the flag, `on_stop` clears the flag and the widgets. -/
structure AppObj where
  isActive : Bool
  widgets : List String
deriving DecidableEq

/-- Look up an app object in the registry (Python `self.apps[name]`). -/
def appsGet : List (String × AppObj) → String → Option AppObj
  | [], _ => none
  | (k, a) :: rest, key => if k = key then some a else appsGet rest key

/-- Replace an app object in the registry. -/
def appsSet : List (String × AppObj) → String → AppObj → List (String × AppObj)
  | [], _, _ => []
  | (k, a) :: rest, key, b =>
    if k = key then (k, b) :: rest else (k, a) :: appsSet rest key b

/-- The mutable kernel state (src/kernel/main.py:68-92), restricted to
the fields the claims are about. -/
structure KState where
  files : List (String × String)
  system_log_lines : List String
  app_log_lines : List String
  active_app : Option String
  apps : List (String × AppObj)
  rendererWidgets : List String
  startCalls : List String
  stopCalls : List String
deriving DecidableEq

/-- The `self.apps` registry built in `NeuralKernel.__init__`
(src/kernel/main.py:87-92): four keys, each bound to its own fresh app
instance. -/
def initApps : List (String × AppObj) :=
  [("code_studio", ⟨false, []⟩), ("python", ⟨false, []⟩),
   ("calculator", ⟨false, []⟩), ("calc", ⟨false, []⟩)]

/-- The log-buffer cap used in `NeuralKernel.log`
(src/kernel/main.py:106). -/
def logCap : Nat := 15

/-- The `while len(target_buffer) > 15: target_buffer.pop(0)` loop.
The fuel equals the starting length, which bounds the number of
iterations. -/
def trimAux : Nat → List String → List String
  | 0, b => b
  | f + 1, b => if logCap < b.length then trimAux f b.tail else b

/-- Trim a buffer to the cap by evicting from the front. -/
def trimBuffer (b : List String) : List String :=
  trimAux b.length b

/-- The buffer `NeuralKernel.log` appends to: the app buffer when an
app is active, else the system buffer (src/kernel/main.py:99). -/
def KState.targetBuffer (st : KState) : List String :=
  if st.active_app.isSome then st.app_log_lines else st.system_log_lines

/-- Model of `NeuralKernel.log` (src/kernel/main.py:94-107): split the message on
newlines, append each line to the target buffer, then evict from the
front while over the cap.  The `print` to the console is I/O and not
part of the state. -/
def KState.log (st : KState) (message : String) : KState :=
  if st.active_app.isSome then
    { st with app_log_lines :=
        trimBuffer (st.app_log_lines ++ pySplit message '\n') }
  else
    { st with system_log_lines :=
        trimBuffer (st.system_log_lines ++ pySplit message '\n') }

/-- Model of `NeuralKernel.launch_app` (src/kernel/main.py:178-191): for a known
name, clear the app log, make the app active, run its `on_start` hook
(recorded in `startCalls`; it sets `is_active` and builds the UI), and
publish its widgets to the renderer.  For an unknown name, log an error.
Note: the previously active app (if any) is not stopped. -/
def KState.launch_app (st : KState) (app_name : String) : KState :=
  match appsGet st.apps app_name with
  | some app =>
    let app1 : AppObj := { app with isActive := true }
    { st with
        app_log_lines := [],
        active_app := some app_name,
        apps := appsSet st.apps app_name app1,
        startCalls := st.startCalls ++ [app_name],
        rendererWidgets := app1.widgets }
  | none => st.log ("App \x27" ++ app_name ++ "\x27 not found.")

/-- Model of `NeuralKernel.close_app` (src/kernel/main.py:193-199): if an app is
active, run its `on_stop` hook (recorded in `stopCalls`; it clears
`is_active` and the widgets), clear the active app and the renderer
widgets, and log a confirmation (which lands in the system buffer, the
active app having just been cleared). -/
def KState.close_app (st : KState) : KState :=
  match st.active_app with
  | some name =>
    let apps1 :=
      match appsGet st.apps name with
      | some app => appsSet st.apps name { app with isActive := false, widgets := [] }
      | none => st.apps
    ({ st with
        apps := apps1,
        active_app := none,
        rendererWidgets := [],
        stopCalls := st.stopCalls ++ [name] }).log "App closed."
  | none => st

/-- The configured model name (src/kernel/main.py:52). -/
def MODEL_NAME : String := "gemma3:12b"

/-- Python `action == "s"` where `action = intent.get("action")`: only a
string value can compare equal. -/
def actionIs : Option JVal → String → Bool
  | some (.jstr t), s => t = s
  | _, _ => false

/-- Python `params.get(key)`: `None`-defaulting lookup on a dict;
raises `AttributeError` on any other value. -/
def pyGet (params : JVal) (key : String) : Except String (Option JVal) :=
  match params with
  | .jobj d => .ok (dictGet d key)
  | v => .error ("\x27" ++ pyTypeName v ++ "\x27 object has no attribute \x27get\x27")

/-- Python `params.get(key, dflt)`. -/
def pyGetD (params : JVal) (key : String) (dflt : JVal) : Except String JVal :=
  (pyGet params key).map (fun o => o.getD dflt)

/-- Model of `NeuralKernel.execute_syscall` (src/kernel/main.py:201-262).

* `fetchSummarize` abstracts `browser.fetch_and_summarize`
  (src/net/browser.py), which wraps its whole body in `try/except` and
  returns an error string on any failure, so it is modelled as a total
  oracle from the url value to the summary string.
* `render_ui` calls only draw and do not change the modelled state.
* An `Except.error` result models a Python exception escaping
  `execute_syscall` into the kernel loop panic handler.  Non-text
  parameter bindings for the storage calls are outside the modelled
  subset (see the `Database` namespace). -/
def KState.execute_syscall (fetchSummarize : Option JVal → String)
    (st0 : KState) (intent : PyDict) : Except String KState :=
  let action := dictGet intent "action"
  let params := (dictGet intent "params").getD (.jobj [])
  let st := st0.log ("Exec: " ++ pyStrOpt action)
  if actionIs action "launch_app" then
    match pyGetD params "name" (.jstr "") with
    | .error e => .error e
    | .ok (.jstr s) =>
      .ok (st.launch_app (pyReplaceChar (pyLower s) ' ' '_'))
    | .ok v =>
      .error ("\x27" ++ pyTypeName v ++ "\x27 object has no attribute \x27lower\x27")
  else if actionIs action "create_file" then
    match pyGet params "path" with
    | .error e => .error e
    | .ok pathV =>
      match pyGetD params "content" (.jstr "") with
      | .error e => .error e
      | .ok contentV =>
        match pathV, contentV with
        | some (.jstr p), .jstr c =>
          let res := Database.write_file st.files p c
          if res.1 then .ok (({ st with files := res.2 }).log ("Created " ++ p))
          else .ok (st.log ("Error creating " ++ p))
        | _, _ =>
          .ok (st.log ("Error creating " ++ pyStrOpt pathV))
  else if actionIs action "read_file" then
    match pyGet params "path" with
    | .error e => .error e
    | .ok pathV =>
      match pathV with
      | some (.jstr p) =>
        match Database.read_file st.files p with
        | some content => .ok ((st.log ("Read " ++ p)).log content)
        | none => .ok (st.log ("Error: " ++ p ++ " 404"))
      | none => .ok (st.log "Error: None 404")
      | some v => .error ("unsupported parameter binding: " ++ pyTypeName v)
  else if actionIs action "delete_file" then
    match pyGet params "path" with
    | .error e => .error e
    | .ok pathV =>
      match pathV with
      | some (.jstr p) =>
        let res := Database.delete_file st.files p
        if res.1 then .ok (({ st with files := res.2 }).log ("Deleted " ++ p))
        else .ok (st.log ("Error: " ++ p ++ " 404"))
      | _ => .ok (st.log ("Error: " ++ pyStrOpt pathV ++ " 404"))
  else if actionIs action "list_files" then
    let fs := Database.list_files st.files
    let st1 := st.log ("Files: " ++ toString fs.length)
    .ok ((fs.take 5).foldl (fun s f => s.log ("- " ++ f)) st1)
  else if actionIs action "system_status" then
    .ok (((st.log "RAM: 16KB Used").log ("Cortex: " ++ MODEL_NAME)).log
      "Storage: SQLite Persistent")
  else if actionIs action "browse" then
    match pyGet params "url" with
    | .error e => .error e
    | .ok urlV =>
      let st1 := st.log ("Browsing: " ++ pyStrOpt urlV ++ "...")
      let summary := fetchSummarize urlV
      let st2 := st1.log "--- PAGE SUMMARY ---"
      let st3 := (pySplit summary '\n').foldl
        (fun s line =>
          if (pyStripStr line).length = 0 then s else s.log (pyStripStr line))
        st2
      .ok (st3.log "--------------------")
  else if actionIs action "unknown" then
    .ok (st.log "Unknown Intent")
  else
    .ok st

/-! ### Concrete inputs and states used in witnesses and counterexamples -/

/-- The concrete model reply of the specification scenario. -/
def c5input : List Char :=
  "```json\n\x7b\"intent\":\"create_file\",\"filename\":\"x\",\"file_content\":\"y\"\x7d\n```".toList

/-- A well-formed reply whose action names an unsupported operation and
whose explicit `params` value is the number `5`. -/
def c1input : List Char :=
  "\x7b\"action\":\"bogus\",\"params\":5\x7d".toList

/-- A reply whose brace span is not parseable JSON. -/
def c2input : List Char := "\x7bbad\x7d".toList

/-- A fenced reply with a whitelisted action whose params carry the
`filename` alias without the canonical `path` key. -/
def c3input : List Char :=
  "```json\n\x7b\"action\":\"create_file\",\"params\":\x7b\"filename\":\"x\"\x7d\x7d\n```".toList

/-- A well-formed reply that itself supplies `action: "unknown"` and no
`reason` field. -/
def c6input : List Char := "\x7b\"action\":\"unknown\"\x7d".toList

/-- A raw model reply consisting of a `json`-tagged fenced block around
the payload `j`: three backticks, the tag `json`, a newline, `j`, a
newline, and the closing three backticks. -/
def fenceWrap (j : List Char) : List Char :=
  btChar :: btChar :: btChar :: 'j' :: 's' :: 'o' :: 'n' :: '\n' ::
    (j ++ '\n' :: bt3)

/-- A backtick-free well-formed intent payload used as the round-trip
witness. -/
def c3payload : List Char :=
  "\x7b\"action\":\"list_files\",\"params\":\x7b\x7d\x7d".toList

/-- A reply with action `launch_app`, exactly as instructed by the
kernel system prompt (src/kernel/main.py:53-66). -/
def c4input : List Char :=
  "\x7b\"action\": \"launch_app\", \"params\": \x7b\"name\": \"calc\"\x7d\x7d".toList

/-- An Unknown intent carrying a stored reason. -/
def c7intent : PyDict :=
  [("action", .jstr "unknown"), ("reason", .jstr "model burped")]

/-- A freshly booted kernel state: no files, empty logs, no active app. -/
def bootState : KState :=
  ⟨[], [], [], none, initApps, [], [], []⟩

/-- A kernel state in which the `code_studio` app session is active
(launched once, never stopped). -/
def c8state : KState :=
  ⟨[], [], [], some "code_studio",
   [("code_studio", ⟨true, []⟩), ("python", ⟨false, []⟩),
    ("calculator", ⟨false, []⟩), ("calc", ⟨false, []⟩)],
   [], ["code_studio"], []⟩

/-! ### Dictionary lemmas -/

theorem dictGet_dictSet_self (d : PyDict) (k : String) (v : JVal) :
    dictGet (dictSet d k v) k = some v := by
  induction d with
  | nil => simp [dictSet, dictGet]
  | cons a rest ih =>
    by_cases h : a.1 = k <;> simp [dictSet, dictGet, h, ih]

theorem dictGet_dictSet_ne (d : PyDict) (k k' : String) (v : JVal)
    (h : ¬ k = k') : dictGet (dictSet d k v) k' = dictGet d k' := by
  induction d with
  | nil => simp [dictSet, dictGet, h]
  | cons a rest ih =>
    obtain ⟨a1, a2⟩ := a
    by_cases h1 : a1 = k
    · subst h1
      simp only [dictSet, if_pos rfl, dictGet, if_neg h]
    · simp only [dictSet, if_neg h1]
      by_cases h2 : a1 = k'
      · simp only [dictGet, if_pos h2]
      · simp only [dictGet, if_neg h2, ih]

theorem dictSet_of_get (d : PyDict) (k : String) (v : JVal)
    (h : dictGet d k = some v) : dictSet d k v = d := by
  induction d with
  | nil => simp [dictGet] at h
  | cons a rest ih =>
    by_cases h1 : a.1 = k
    · simp [dictGet, h1] at h
      obtain ⟨a1, a2⟩ := a
      simp_all [dictSet]
    · simp [dictGet, h1] at h
      simp [dictSet, h1, ih h]

theorem appsGet_appsSet_ne (d : List (String × AppObj)) (k k' : String)
    (v : AppObj) (h : ¬ k = k') : appsGet (appsSet d k v) k' = appsGet d k' := by
  induction d with
  | nil => simp [appsSet, appsGet]
  | cons a rest ih =>
    obtain ⟨a1, a2⟩ := a
    by_cases h1 : a1 = k
    · subst h1
      simp only [appsSet, if_pos rfl, appsGet, if_neg h]
    · simp only [appsSet, if_neg h1]
      by_cases h2 : a1 = k'
      · simp only [appsGet, if_pos h2]
      · simp only [appsGet, if_neg h2, ih]

/-! ### `IntentParser` lemmas -/

namespace IntentParser

theorem dictGet_unknownDict_action (r : String) :
    dictGet (unknownDict r) "action" = some (.jstr "unknown") := rfl

theorem dictGet_unknownDict_reason (r : String) :
    dictGet (unknownDict r) "reason" = some (.jstr r) := rfl

theorem parseNonDict_action (v : JVal) :
    dictGet (parseNonDict v) "action" = some (.jstr "unknown") := by
  cases v
  case jstr s => simp only [parseNonDict]; split_ifs <;> rfl
  case jarr xs => simp only [parseNonDict]; split_ifs <;> rfl
  all_goals rfl

theorem parseNonDict_reason (v : JVal) :
    (dictGet (parseNonDict v) "reason").isSome = true := by
  cases v
  case jstr s => simp only [parseNonDict]; split_ifs <;> rfl
  case jarr xs => simp only [parseNonDict]; split_ifs <;> rfl
  all_goals rfl

theorem ensureParams_get_action (kvs : PyDict) :
    dictGet (ensureParams kvs) "action" = dictGet kvs "action" := by
  unfold ensureParams
  split
  · exact dictGet_dictSet_ne _ _ _ _ (by decide)
  · rfl

theorem aliasStep_obj (d : PyDict) (src dst : String) :
    ∃ d1, aliasStep (.jobj d) src dst = .ok (.jobj d1) := by
  simp only [aliasStep]
  split_ifs <;> exact ⟨_, rfl⟩

theorem aliasParams_obj (p : PyDict) :
    ∃ p1, aliasParams (.jobj p) = .ok (.jobj p1) := by
  obtain ⟨d1, h1⟩ := aliasStep_obj p "filename" "path"
  obtain ⟨d2, h2⟩ := aliasStep_obj d1 "file_content" "content"
  obtain ⟨d3, h3⟩ := aliasStep_obj d2 "website" "url"
  exact ⟨d3, by simp [aliasParams, h1, h2, h3, Except.bind]⟩

/-- The function `parseDict` with its let-bindings expanded (definitional). -/
theorem parseDict_eq (kvs0 : PyDict) :
    parseDict kvs0 =
      if !dictContains (aliasIntent kvs0) "action" then
        unknownDict "Missing \x27action\x27 field"
      else
        match aliasParams
          ((dictGet (ensureParams (aliasIntent kvs0)) "params").getD .jnull) with
        | .error e => unknownDict e
        | .ok pv =>
          if isUnhashable
              ((dictGet (dictSet (ensureParams (aliasIntent kvs0)) "params" pv)
                "action").getD .jnull) then
            unknownDict ("unhashable type: \x27" ++
              pyTypeName ((dictGet (dictSet (ensureParams (aliasIntent kvs0))
                "params" pv) "action").getD .jnull) ++ "\x27")
          else if isValidAction
              ((dictGet (dictSet (ensureParams (aliasIntent kvs0)) "params" pv)
                "action").getD .jnull) then
            dictSet (ensureParams (aliasIntent kvs0)) "params" pv
          else
            unknownDict ("Invalid action: " ++
              pyStr ((dictGet (dictSet (ensureParams (aliasIntent kvs0))
                "params" pv) "action").getD .jnull)) := rfl

/-- The `action` entry is untouched by installing the params value. -/
theorem kvs3_action (kvs : PyDict) (pv : JVal) :
    dictGet (dictSet (ensureParams (aliasIntent kvs)) "params" pv) "action"
      = dictGet (aliasIntent kvs) "action" := by
  rw [dictGet_dictSet_ne _ _ _ _ (by decide)]
  exact ensureParams_get_action _

theorem parseDict_missing (kvs : PyDict)
    (h : dictGet (aliasIntent kvs) "action" = none) :
    parseDict kvs = unknownDict "Missing \x27action\x27 field" := by
  rw [parseDict_eq, if_pos (by simp [dictContains, h])]

theorem parseDict_aliasError (kvs : PyDict) (e : String)
    (hact : dictContains (aliasIntent kvs) "action" = true)
    (hp : aliasParams
      ((dictGet (ensureParams (aliasIntent kvs)) "params").getD .jnull)
      = .error e) :
    parseDict kvs = unknownDict e := by
  rw [parseDict_eq, if_neg (by simp [hact]), hp]

theorem parseDict_ok (kvs : PyDict) (pv : JVal)
    (hact : dictContains (aliasIntent kvs) "action" = true)
    (hp : aliasParams
      ((dictGet (ensureParams (aliasIntent kvs)) "params").getD .jnull)
      = .ok pv) :
    parseDict kvs =
      (if isUnhashable
          ((dictGet (dictSet (ensureParams (aliasIntent kvs)) "params" pv)
            "action").getD .jnull) then
        unknownDict ("unhashable type: \x27" ++
          pyTypeName ((dictGet (dictSet (ensureParams (aliasIntent kvs))
            "params" pv) "action").getD .jnull) ++ "\x27")
      else if isValidAction
          ((dictGet (dictSet (ensureParams (aliasIntent kvs)) "params" pv)
            "action").getD .jnull) then
        dictSet (ensureParams (aliasIntent kvs)) "params" pv
      else
        unknownDict ("Invalid action: " ++
          pyStr ((dictGet (dictSet (ensureParams (aliasIntent kvs))
            "params" pv) "action").getD .jnull))) := by
  rw [parseDict_eq, if_neg (by simp [hact]), hp]

/-- When the params value of the normalized dict is constrained to be an
object (when explicitly present), the installed params value is an
object. -/
theorem ensureParams_params_obj (kvs1 : PyDict)
    (hpar : ∀ v, dictGet kvs1 "params" = some v → ∃ p, v = .jobj p) :
    ∃ p, dictGet (ensureParams kvs1) "params" = some (.jobj p) := by
  by_cases hc : dictContains kvs1 "params"
  · obtain ⟨v, hv⟩ := Option.isSome_iff_exists.mp hc
    obtain ⟨p, rfl⟩ := hpar v hv
    refine ⟨p, ?_⟩
    rw [ensureParams, if_neg (by simp [hc])]
    exact hv
  · refine ⟨inferParams kvs1, ?_⟩
    rw [ensureParams, if_pos (by simp [dictContains] at hc ⊢; simp [hc])]
    exact dictGet_dictSet_self _ _ _

theorem parse_obj (cs : List Char) (kvs : PyDict)
    (h : jsonLoads (extract_json cs) = some (.jobj kvs)) :
    parse cs = parseDict kvs := by
  unfold parse
  rw [h]

end IntentParser

/-! ### Log-buffer lemmas -/

theorem trimAux_eq (f : Nat) : ∀ (b : List String), b.length ≤ f →
    trimAux f b = b.drop (b.length - logCap) := by
  induction f with
  | zero =>
    intro b hb
    have hnil : b = [] := List.eq_nil_of_length_eq_zero (Nat.le_zero.mp hb)
    subst hnil
    rfl
  | succ f ih =>
    intro b hb
    simp only [trimAux]
    split_ifs with hlt
    · cases b with
      | nil => simp [logCap] at hlt
      | cons x t =>
        have ht : t.length ≤ f := by simp at hb; omega
        simp only [List.tail_cons]
        rw [ih t ht]
        have harith : (x :: t).length - logCap = (t.length - logCap) + 1 := by
          simp only [List.length_cons, logCap] at hlt ⊢
          omega
        rw [harith, List.drop_succ_cons]
    · have h0 : b.length - logCap = 0 := by
        simp only [logCap] at hlt ⊢
        omega
      rw [h0, List.drop_zero]

theorem trimBuffer_eq (b : List String) :
    trimBuffer b = b.drop (b.length - logCap) :=
  trimAux_eq _ _ (Nat.le_refl _)

theorem trimBuffer_length (b : List String) :
    (trimBuffer b).length ≤ logCap := by
  rw [trimBuffer_eq, List.length_drop]
  omega

/-- The log call touches only the log buffers. -/
theorem KState.log_preserves (st : KState) (m : String) :
    (st.log m).files = st.files ∧ (st.log m).active_app = st.active_app ∧
    (st.log m).apps = st.apps ∧ (st.log m).stopCalls = st.stopCalls ∧
    (st.log m).startCalls = st.startCalls := by
  unfold KState.log
  split <;> exact ⟨rfl, rfl, rfl, rfl, rfl⟩

/-! ### Extraction lemmas for fenced payloads -/

theorem isPrefixOf_append_self (l r : List Char) :
    l.isPrefixOf (l ++ r) = true := by
  induction l with
  | nil => simp [List.isPrefixOf]
  | cons c t ih => simp [List.isPrefixOf, ih]

theorem findSubAux_cons_ne (needle : List Char) (c : Char) (hay : List Char)
    (hne : needle.isPrefixOf (c :: hay) = false) (i : Nat) :
    findSubAux needle (c :: hay) i = findSubAux needle hay (i + 1) := by
  simp [findSubAux, hne]

/-- Scanning for the closing fence: positions inside a backtick-free
block cannot start a match, so the first occurrence is right after the
block. -/
theorem findSubAux_bt3_skip (xs : List Char) (h : ∀ c ∈ xs, ¬ c = btChar)
    (ys : List Char) : ∀ (i : Nat),
    findSubAux bt3 (xs ++ bt3 ++ ys) i = some (i + xs.length) := by
  induction xs with
  | nil =>
    intro i
    have hpre : bt3.isPrefixOf (bt3 ++ ys) = true := isPrefixOf_append_self bt3 ys
    simp only [List.nil_append, List.length_nil, Nat.add_zero]
    rw [show bt3 ++ ys = btChar :: (btChar :: btChar :: ys) from by simp [bt3]] at hpre ⊢
    simp [findSubAux, hpre]
  | cons c t ih =>
    intro i
    have hc : ¬ c = btChar := h c (List.mem_cons_self c t)
    have hbc : (btChar == c) = false :=
      beq_eq_false_iff_ne.mpr (fun hEq => hc hEq.symm)
    have hpre : bt3.isPrefixOf (c :: (t ++ bt3 ++ ys)) = false := by
      simp [bt3, List.isPrefixOf, hbc]
    have hshape : (c :: t) ++ bt3 ++ ys = c :: (t ++ bt3 ++ ys) := by
      simp
    rw [hshape, findSubAux_cons_ne _ _ _ hpre,
      ih (fun d hd => h d (List.mem_cons_of_mem c hd)) (i + 1)]
    simp only [List.length_cons]
    congr 1
    omega

theorem pyIsSpace_bt : pyIsSpace btChar = false := by decide

theorem pyIsSpace_nl : pyIsSpace '\n' = true := by decide

theorem pyStrip_eq_self (l : List Char)
    (h1 : l.dropWhile pyIsSpace = l)
    (h2 : l.reverse.dropWhile pyIsSpace = l.reverse) : pyStrip l = l := by
  unfold pyStrip
  rw [h1, h2, List.reverse_reverse]

theorem pyStrip_cons_space (c : Char) (l : List Char)
    (hc : pyIsSpace c = true) : pyStrip (c :: l) = pyStrip l := by
  unfold pyStrip
  rw [List.dropWhile_cons, if_pos hc]

theorem pyStrip_append_space (c : Char) (hc : pyIsSpace c = true) :
    ∀ (l : List Char), pyStrip (l ++ [c]) = pyStrip l := by
  intro l
  induction l with
  | nil => simp [pyStrip, List.dropWhile, hc]
  | cons a t ih =>
    by_cases ha : pyIsSpace a = true
    · rw [List.cons_append, pyStrip_cons_space a _ ha, pyStrip_cons_space a t ha]
      exact ih
    · unfold pyStrip
      rw [List.cons_append, List.dropWhile_cons, if_neg (by simp [ha]),
        List.dropWhile_cons, if_neg (by simp [ha])]
      simp only [List.reverse_cons, List.reverse_append, List.reverse_nil,
        List.nil_append, List.cons_append, List.singleton_append]
      rw [List.dropWhile_cons, if_pos hc]

theorem pyStrip_fenceWrap (j : List Char) :
    pyStrip (fenceWrap j) = fenceWrap j := by
  apply pyStrip_eq_self
  · rw [show fenceWrap j = btChar ::
      (btChar :: btChar :: 'j' :: 's' :: 'o' :: 'n' :: '\n' :: (j ++ '\n' :: bt3))
      from rfl]
    rw [List.dropWhile_cons, if_neg (by simp [pyIsSpace_bt])]
  · have hshape : (fenceWrap j).reverse =
        btChar :: btChar :: btChar :: '\n' ::
          (j.reverse ++ ['\n', 'n', 'o', 's', 'j', btChar, btChar, btChar]) := by
      simp [fenceWrap, bt3, List.reverse_cons, List.reverse_append]
    rw [hshape, List.dropWhile_cons, if_neg (by simp [pyIsSpace_bt])]

theorem findSub_fenceWrap_btJson (j : List Char) :
    findSub (fenceWrap j) btJson = some 0 := by
  have hpre : btJson.isPrefixOf (fenceWrap j) = true := by
    simp [btJson, bt3, fenceWrap, List.isPrefixOf]
  rw [show fenceWrap j = btChar ::
    (btChar :: btChar :: 'j' :: 's' :: 'o' :: 'n' :: '\n' :: (j ++ '\n' :: bt3))
    from rfl] at hpre ⊢
  simp [findSub, findSubAux, hpre]

theorem drop7_fenceWrap (j : List Char) :
    (fenceWrap j).drop 7 = '\n' :: (j ++ '\n' :: bt3) := rfl

theorem findFrom_fenceWrap (j : List Char) (h : ∀ c ∈ j, ¬ c = btChar) :
    findFrom (fenceWrap j) bt3 7 = some (j.length + 9) := by
  unfold findFrom
  rw [drop7_fenceWrap]
  have hshape : '\n' :: (j ++ '\n' :: bt3) =
      ('\n' :: (j ++ ['\n'])) ++ bt3 ++ [] := by
    simp
  rw [hshape]
  rw [findSubAux_bt3_skip ('\n' :: (j ++ ['\n']))
    (by
      intro c hc
      rcases List.mem_cons.mp hc with h1 | h1
      · subst h1; decide
      · rcases List.mem_append.mp h1 with h2 | h2
        · exact h c h2
        · rcases List.mem_singleton.mp h2 with rfl; decide)
    [] 0]
  simp only [Option.map_some', List.length_cons, List.length_append,
    List.length_singleton, List.length_nil]
  congr 1
  omega

theorem pySlice_fenceWrap (j : List Char) :
    pySlice (fenceWrap j) 7 (j.length + 9) = '\n' :: (j ++ ['\n']) := by
  unfold pySlice
  rw [drop7_fenceWrap]
  have harith : j.length + 9 - 7 = (j.length + 1) + 1 := by omega
  rw [harith, List.take_succ_cons]
  have hshape : j ++ '\n' :: bt3 = j ++ ['\n'] ++ bt3 := by simp
  rw [hshape]
  have hlen : j.length + 1 = (j ++ ['\n']).length := by simp
  rw [hlen, List.take_left]

theorem extract_fenceWrap (j : List Char) (h : ∀ c ∈ j, ¬ c = btChar) :
    extract_json (fenceWrap j) = pyStrip j := by
  unfold extract_json
  rw [pyStrip_fenceWrap j]
  simp only [findSub_fenceWrap_btJson, Nat.zero_add, findFrom_fenceWrap j h,
    pySlice_fenceWrap]
  rw [pyStrip_cons_space _ _ pyIsSpace_nl, pyStrip_append_space _ pyIsSpace_nl]

/-- Validation is the identity on a well-formed intent dict whose params
carry no unfilled alias key. -/
theorem IntentParser.parseDict_roundtrip (kvs p : PyDict) (a : String)
    (ha : dictGet kvs "action" = some (.jstr a))
    (hval : IntentParser.valid_actions.contains a = true)
    (hp : dictGet kvs "params" = some (.jobj p))
    (h1 : ¬ (dictContains p "filename" = true ∧ dictContains p "path" = false))
    (h2 : ¬ (dictContains p "file_content" = true ∧
             dictContains p "content" = false))
    (h3 : ¬ (dictContains p "website" = true ∧ dictContains p "url" = false)) :
    IntentParser.parseDict kvs = kvs := by
  have hali : IntentParser.aliasIntent kvs = kvs := by
    unfold IntentParser.aliasIntent
    rw [if_neg (by simp [dictContains, ha])]
  have hens : IntentParser.ensureParams kvs = kvs := by
    unfold IntentParser.ensureParams
    rw [if_neg (by simp [dictContains, hp])]
  have hstep : ∀ src dst, ¬ (dictContains p src = true ∧
      dictContains p dst = false) →
      IntentParser.aliasStep (.jobj p) src dst = .ok (.jobj p) := by
    intro src dst hnd
    simp only [IntentParser.aliasStep]
    rw [if_neg]
    intro hcond
    rw [Bool.and_eq_true, Bool.not_eq_true'] at hcond
    exact hnd hcond
  have hali2 : IntentParser.aliasParams (.jobj p) = .ok (.jobj p) := by
    simp [IntentParser.aliasParams, hstep "filename" "path" h1,
      hstep "file_content" "content" h2, hstep "website" "url" h3, Except.bind]
  have hact : dictContains (IntentParser.aliasIntent kvs) "action" = true := by
    rw [hali]; simp [dictContains, ha]
  have hpar : IntentParser.aliasParams
      ((dictGet (IntentParser.ensureParams (IntentParser.aliasIntent kvs))
        "params").getD .jnull) = .ok (.jobj p) := by
    rw [hali, hens, hp]
    exact hali2
  rw [IntentParser.parseDict_ok kvs (.jobj p) hact hpar, hali, hens,
    dictSet_of_get kvs "params" (.jobj p) hp, ha]
  simp only [Option.getD_some]
  rw [if_neg (by simp [IntentParser.isUnhashable]),
    if_pos (by simpa [IntentParser.isValidAction] using hval)]

/-! ### Claims -/

/-- C1 (amended): for every input whose extracted candidate parses as a
JSON object, after the `intent`→`action` normalization: (missing case)
if `action` is absent, `parse` returns the Unknown intent with the
missing-action reason; (naming case) if `action` is present, the
explicit `params` value (when any) is an object, the action value is
hashable, and the action is not in the whitelist, `parse` returns the
Unknown intent whose reason names the offending action; (universal
rejection) whenever the present action is not in the whitelist the
result is an Unknown intent, whatever the params value. -/
theorem C1_whitelist_rejection (cs : List Char) (kvs : PyDict)
    (h : jsonLoads (extract_json cs) = some (.jobj kvs)) :
    (dictGet (IntentParser.aliasIntent kvs) "action" = none →
      IntentParser.parse cs =
        IntentParser.unknownDict "Missing \x27action\x27 field") ∧
    (∀ a, dictGet (IntentParser.aliasIntent kvs) "action" = some a →
      (∀ v, dictGet (IntentParser.aliasIntent kvs) "params" = some v →
        ∃ p, v = .jobj p) →
      IntentParser.isUnhashable a = false →
      IntentParser.isValidAction a = false →
      IntentParser.parse cs =
        IntentParser.unknownDict ("Invalid action: " ++ pyStr a)) ∧
    (∀ a, dictGet (IntentParser.aliasIntent kvs) "action" = some a →
      IntentParser.isValidAction a = false →
      dictGet (IntentParser.parse cs) "action" = some (.jstr "unknown")) := by
  rw [IntentParser.parse_obj cs kvs h]
  refine ⟨?_, ?_, ?_⟩
  · intro h0
    exact IntentParser.parseDict_missing kvs h0
  · intro a hav hpar hunh hval
    have hact : dictContains (IntentParser.aliasIntent kvs) "action" = true := by
      simp [dictContains, hav]
    obtain ⟨p, hpv⟩ := IntentParser.ensureParams_params_obj _ hpar
    obtain ⟨p1, hp1⟩ := IntentParser.aliasParams_obj p
    have hp : IntentParser.aliasParams
        ((dictGet (IntentParser.ensureParams (IntentParser.aliasIntent kvs))
          "params").getD .jnull) = .ok (.jobj p1) := by
      rw [hpv]
      exact hp1
    rw [IntentParser.parseDict_ok kvs (.jobj p1) hact hp,
      IntentParser.kvs3_action kvs (.jobj p1), hav]
    simp only [Option.getD_some]
    rw [if_neg (by simp [hunh]), if_neg (by simp [hval])]
  · intro a hav hval
    have hact : dictContains (IntentParser.aliasIntent kvs) "action" = true := by
      simp [dictContains, hav]
    cases hp : IntentParser.aliasParams
        ((dictGet (IntentParser.ensureParams (IntentParser.aliasIntent kvs))
          "params").getD .jnull) with
    | error e =>
      rw [IntentParser.parseDict_aliasError kvs e hact hp]
      exact IntentParser.dictGet_unknownDict_action _
    | ok pv =>
      rw [IntentParser.parseDict_ok kvs pv hact hp,
        IntentParser.kvs3_action kvs pv, hav]
      simp only [Option.getD_some]
      split_ifs with h1 h2
      · exact IntentParser.dictGet_unknownDict_action _
      · exact absurd h2 (by simp [hval])
      · exact IntentParser.dictGet_unknownDict_action _

/-- C1 witness: the reply `\x7b"action":"foo"\x7d` is rejected with a
reason naming `foo`. -/
theorem C1_witness :
    IntentParser.parse ("\x7b\"action\":\"foo\"\x7d".toList) =
      IntentParser.unknownDict ("Invalid action: " ++ pyStr (.jstr "foo")) :=
  (C1_whitelist_rejection ("\x7b\"action\":\"foo\"\x7d".toList)
      [("action", .jstr "foo")] rfl).2.1 (.jstr "foo") rfl
    (fun _ hv => nomatch hv) rfl rfl

/-- C1 counterexample: on `\x7b"action":"bogus","params":5\x7d` — a
well-formed JSON object whose action is present and outside the
whitelist — `parse` returns Unknown, but the reason is the `TypeError`
text of the alias-mapping crash and does not name the action `bogus`,
contradicting the claim that the reason names the offending action
whenever the action is present. -/
theorem C1_counterexample :
    jsonLoads (extract_json c1input) =
      some (.jobj [("action", .jstr "bogus"), ("params", .jnum 5)]) ∧
    IntentParser.parse c1input =
      IntentParser.unknownDict (IntentParser.notIterMsg "int") ∧
    isSubStr "bogus".toList (IntentParser.notIterMsg "int").toList = false :=
  ⟨rfl, rfl, rfl⟩

/-- C2: for every input string, `parse` is total (it is a Lean function
into intent dicts, mirroring that the Python code catches every
exception), and whenever the extracted candidate does not parse as a
JSON object the result is an Unknown intent. -/
theorem C2_nonobject_unknown (cs : List Char)
    (h : ∀ kvs, ¬ jsonLoads (extract_json cs) = some (.jobj kvs)) :
    dictGet (IntentParser.parse cs) "action" = some (.jstr "unknown") := by
  unfold IntentParser.parse
  cases hj : jsonLoads (extract_json cs) with
  | none =>
    exact IntentParser.dictGet_unknownDict_action _
  | some v =>
    cases v with
    | jobj kvs => exact absurd hj (h kvs)
    | jnull => exact IntentParser.parseNonDict_action _
    | jbool b => exact IntentParser.parseNonDict_action _
    | jnum n => exact IntentParser.parseNonDict_action _
    | jstr s => exact IntentParser.parseNonDict_action _
    | jarr xs => exact IntentParser.parseNonDict_action _

/-- C2 witness: the brace span of `\x7bbad\x7d` is not parseable JSON,
and `parse` returns an Unknown intent on it. -/
theorem C2_witness :
    dictGet (IntentParser.parse c2input) "action" = some (.jstr "unknown") :=
  C2_nonobject_unknown c2input (fun kvs hk => by
    rw [show jsonLoads (extract_json c2input) = none from rfl] at hk
    exact Option.noConfusion hk)

/-- C4: the claim says `launch_app` is a supported action that passes
the whitelist.  In the code, `IntentParser.valid_actions`
(src/kernel/intent_parser.py:21-30) omits `launch_app`, although the
kernel system prompt advertises it (src/kernel/main.py:58) and
`execute_syscall` implements it (src/kernel/main.py:208-210): a
well-formed `launch_app` reply is degraded to Unknown, so the dispatcher
branch is unreachable from model output. -/
theorem C4_launch_app_rejected :
    IntentParser.valid_actions.contains "launch_app" = false ∧
    IntentParser.parse c4input =
      IntentParser.unknownDict "Invalid action: launch_app" :=
  ⟨rfl, rfl⟩

/-- C5 (amended): the concrete scenario input decodes to a dict whose
`action` is `create_file` and whose `params` maps `path` to `x` and
`content` to `y`, but the dict also retains the original top-level
fields (`intent`, `filename`, `file_content`) and the params retain the
alias keys (`filename`, `file_content`): the result does not have
exactly two fields. -/
theorem C5_concrete_decode :
    IntentParser.parse c5input =
      [("intent", .jstr "create_file"), ("filename", .jstr "x"),
       ("file_content", .jstr "y"), ("action", .jstr "create_file"),
       ("params", .jobj [("filename", .jstr "x"), ("file_content", .jstr "y"),
                         ("path", .jstr "x"), ("content", .jstr "y")])] := rfl

/-- C5 counterexample: the decode result is not the two-field dict
`\x7baction, params\x7d` asserted by the claim. -/
theorem C5_counterexample :
    IntentParser.parse c5input ≠
      [("action", .jstr "create_file"),
       ("params", .jobj [("path", .jstr "x"), ("content", .jstr "y")])] := by
  intro h
  have e : (IntentParser.parse c5input).map Prod.fst =
      ["intent", "filename", "file_content", "action", "params"] := rfl
  rw [h] at e
  exact absurd e (by decide)

/-- C6 counterexample: the reply `\x7b"action":"unknown"\x7d` (action
`unknown` is a member of the whitelist) passes validation unchanged, so
`parse` returns an intent whose action is `unknown` but which carries no
`reason` field, contradicting the claim that every Unknown intent
carries a reason. -/
theorem C6_counterexample :
    dictGet (IntentParser.parse c6input) "action" = some (.jstr "unknown") ∧
    dictGet (IntentParser.parse c6input) "reason" = none :=
  ⟨rfl, rfl⟩

/-- C7 (amended): dispatching an intent whose action is `unknown` logs
the fixed line `Unknown Intent` — not the stored reason — after the
generic `Exec:` line, and performs no other side effect: files, the
active app, the app registry and the stop-hook trace are unchanged. -/
theorem C7_unknown_dispatch (f : Option JVal → String) (st : KState)
    (intent : PyDict)
    (h : dictGet intent "action" = some (.jstr "unknown")) :
    KState.execute_syscall f st intent =
      .ok ((st.log "Exec: unknown").log "Unknown Intent") ∧
    ((st.log "Exec: unknown").log "Unknown Intent").files = st.files ∧
    ((st.log "Exec: unknown").log "Unknown Intent").active_app = st.active_app ∧
    ((st.log "Exec: unknown").log "Unknown Intent").apps = st.apps ∧
    ((st.log "Exec: unknown").log "Unknown Intent").stopCalls = st.stopCalls := by
  refine ⟨?_, ?_, ?_, ?_, ?_⟩
  · unfold KState.execute_syscall
    rw [h]
    rfl
  · rw [(KState.log_preserves _ _).1, (KState.log_preserves _ _).1]
  · rw [(KState.log_preserves _ _).2.1, (KState.log_preserves _ _).2.1]
  · rw [(KState.log_preserves _ _).2.2.1, (KState.log_preserves _ _).2.2.1]
  · rw [(KState.log_preserves _ _).2.2.2.1, (KState.log_preserves _ _).2.2.2.1]

/-- C7 witness: dispatching a concrete Unknown intent with a stored
reason from the boot state. -/
theorem C7_witness :
    KState.execute_syscall (fun _ => "") bootState c7intent =
      .ok ((bootState.log "Exec: unknown").log "Unknown Intent") :=
  (C7_unknown_dispatch (fun _ => "") bootState c7intent rfl).1

/-- C7 counterexample: the stored reason `model burped` of the Unknown
intent appears nowhere in the produced log lines; the dispatcher logs
the constant line `Unknown Intent` instead of the reason. -/
theorem C7_counterexample :
    KState.execute_syscall (fun _ => "") bootState c7intent =
      .ok ⟨[], ["Exec: unknown", "Unknown Intent"], [], none, initApps, [], [], []⟩ ∧
    "model burped" ∉ ["Exec: unknown", "Unknown Intent"] :=
  ⟨rfl, by decide⟩

/-- C8 (amended): launching a different known app while one is active
makes the new app the sole kernel-active app and leaves the stop-call
trace unchanged — the previously active app session is replaced without
its stop hook ever being invoked, and its registry entry (including its
`is_active` flag) is untouched. -/
theorem C8_launch_no_stop (st : KState) (old name : String)
    (h1 : st.active_app = some old) (h2 : ¬ old = name)
    (h3 : (appsGet st.apps name).isSome = true) :
    (st.launch_app name).active_app = some name ∧
    (st.launch_app name).stopCalls = st.stopCalls ∧
    appsGet (st.launch_app name).apps old = appsGet st.apps old := by
  obtain ⟨app, happ⟩ := Option.isSome_iff_exists.mp h3
  unfold KState.launch_app
  rw [happ]
  exact ⟨rfl, rfl, appsGet_appsSet_ne _ _ _ _ (fun hk => h2 hk.symm)⟩

/-- C8 witness: launching `calc` while `code_studio` is active. -/
theorem C8_witness :
    (c8state.launch_app "calc").active_app = some "calc" ∧
    (c8state.launch_app "calc").stopCalls = c8state.stopCalls ∧
    appsGet (c8state.launch_app "calc").apps "code_studio" =
      appsGet c8state.apps "code_studio" :=
  C8_launch_no_stop c8state "code_studio" "calc" rfl (by decide) rfl

/-- C8 counterexample: after launching `calc` while `code_studio` is
active, the stop hook of `code_studio` has been invoked zero times (not
exactly once as claimed), and its session still has `is_active` set. -/
theorem C8_counterexample :
    (c8state.launch_app "calc").active_app = some "calc" ∧
    ((c8state.launch_app "calc").stopCalls.count "code_studio") = 0 ∧
    (appsGet (c8state.launch_app "calc").apps "code_studio").map
      AppObj.isActive = some true :=
  ⟨rfl, rfl, rfl⟩

/-- C9: after any `log` call, the target buffer holds at most the cap
(15 lines), and its contents are the most recent suffix of the previous
buffer extended with the message lines — the oldest entries are evicted
first. -/
theorem C9_log_cap_fifo (st : KState) (message : String) :
    ((st.log message).targetBuffer).length ≤ logCap ∧
    (st.log message).targetBuffer =
      (st.targetBuffer ++ pySplit message '\n').drop
        ((st.targetBuffer ++ pySplit message '\n').length - logCap) := by
  rcases hA : st.active_app with _ | a <;>
    simp [KState.log, KState.targetBuffer, hA, trimBuffer_eq, trimBuffer_length,
      List.length_drop] <;> omega

/-- C10: writing a file whose path already exists succeeds (returns
`True`, never a write error) and replaces the stored content, so a
subsequent read of that path returns the newly written content. -/
theorem C10_write_upsert (files : List (String × String))
    (path c0 content : String)
    (h : Database.read_file files path = some c0) :
    (Database.write_file files path content).1 = true ∧
    Database.read_file (Database.write_file files path content).2 path =
      some content := by
  refine ⟨rfl, ?_⟩
  show Database.read_file (Database.upsert files path content) path = some content
  clear h
  induction files with
  | nil => simp [Database.upsert, Database.read_file]
  | cons a rest ih =>
    obtain ⟨p, c⟩ := a
    by_cases h1 : p = path <;>
      simp [Database.upsert, Database.read_file, h1, ih]

/-- C3 (amended): for every backtick-free payload `j` that parses as an
object carrying a whitelisted `action` and an object `params` none of
whose alias source keys (`filename`, `file_content`, `website`) is
present without its canonical counterpart, `parse` of the fenced reply
returns the parsed object itself: the same action and the same params
map, unchanged.  (The alias-free proviso is forced by the code: an
unfilled alias key makes the parser add the canonical key to params.) -/
theorem C3_roundtrip (j : List Char) (kvs p : PyDict) (a : String)
    (hbt : ∀ c ∈ j, ¬ c = btChar)
    (hload : jsonLoads (pyStrip j) = some (.jobj kvs))
    (ha : dictGet kvs "action" = some (.jstr a))
    (hval : IntentParser.valid_actions.contains a = true)
    (hp : dictGet kvs "params" = some (.jobj p))
    (h1 : ¬ (dictContains p "filename" = true ∧ dictContains p "path" = false))
    (h2 : ¬ (dictContains p "file_content" = true ∧
             dictContains p "content" = false))
    (h3 : ¬ (dictContains p "website" = true ∧ dictContains p "url" = false)) :
    IntentParser.parse (fenceWrap j) = kvs ∧
    dictGet (IntentParser.parse (fenceWrap j)) "action" = some (.jstr a) ∧
    dictGet (IntentParser.parse (fenceWrap j)) "params" = some (.jobj p) := by
  have hobj : jsonLoads (extract_json (fenceWrap j)) = some (.jobj kvs) := by
    rw [extract_fenceWrap j hbt]
    exact hload
  have hparse : IntentParser.parse (fenceWrap j) = kvs := by
    rw [IntentParser.parse_obj _ _ hobj]
    exact IntentParser.parseDict_roundtrip kvs p a ha hval hp h1 h2 h3
  rw [hparse]
  exact ⟨rfl, ha, hp⟩

/-- C3 witness: the fenced reply around
`\x7b"action":"list_files","params":\x7b\x7d\x7d` decodes to that very
object. -/
theorem C3_witness :
    IntentParser.parse (fenceWrap c3payload) =
      [("action", .jstr "list_files"), ("params", .jobj [])] ∧
    dictGet (IntentParser.parse (fenceWrap c3payload)) "action" =
      some (.jstr "list_files") ∧
    dictGet (IntentParser.parse (fenceWrap c3payload)) "params" =
      some (.jobj []) :=
  C3_roundtrip c3payload
    [("action", .jstr "list_files"), ("params", .jobj [])] [] "list_files"
    (by decide) rfl rfl rfl rfl (by decide) (by decide) (by decide)

/-- C3 counterexample: the fenced reply whose params are
`\x7b"filename":"x"\x7d` — a well-formed fenced JSON object with the
whitelisted action `create_file` and a params map — decodes to a params
map with an added `path` key, so decode does not return the params map
unchanged. -/
theorem C3_counterexample :
    jsonLoads (extract_json c3input) =
      some (.jobj [("action", .jstr "create_file"),
                   ("params", .jobj [("filename", .jstr "x")])]) ∧
    dictGet (IntentParser.parse c3input) "params" =
      some (.jobj [("filename", .jstr "x"), ("path", .jstr "x")]) ∧
    IntentParser.parse c3input ≠
      [("action", .jstr "create_file"),
       ("params", .jobj [("filename", .jstr "x")])] := by
  refine ⟨rfl, rfl, ?_⟩
  intro h
  have e : dictGet (IntentParser.parse c3input) "params" =
      some (.jobj [("filename", .jstr "x"), ("path", .jstr "x")]) := rfl
  rw [h] at e
  have e3 := congrArg
    (fun o => (match o with
      | some (JVal.jobj l) => l.length
      | _ => 0)) e
  exact absurd e3 (by decide)

/-- C6 (amended): every intent returned by `parse` whose action is
`unknown` either carries a `reason` entry (every rejection and error
path of the parser does) or is the pass-through of an input object
that itself supplied `unknown` as its (alias-normalized) action — in
the latter case no reason is added, which is what falsifies the original
claim. -/
theorem C6_unknown_reason (cs : List Char)
    (h : dictGet (IntentParser.parse cs) "action" = some (.jstr "unknown")) :
    (dictGet (IntentParser.parse cs) "reason").isSome = true ∨
    ∃ kvs, jsonLoads (extract_json cs) = some (.jobj kvs) ∧
      dictGet (IntentParser.aliasIntent kvs) "action" =
        some (.jstr "unknown") := by
  cases hj : jsonLoads (extract_json cs) with
  | none =>
    left
    have hpe : IntentParser.parse cs =
        IntentParser.unknownDict "Malformed JSON response" := by
      unfold IntentParser.parse
      rw [hj]
    rw [hpe]
    rfl
  | some v =>
    cases v with
    | jobj kvs =>
      have hpe : IntentParser.parse cs = IntentParser.parseDict kvs :=
        IntentParser.parse_obj cs kvs hj
      rw [hpe] at h ⊢
      cases haction : dictGet (IntentParser.aliasIntent kvs) "action" with
      | none =>
        left
        rw [IntentParser.parseDict_missing kvs haction]
        rfl
      | some a =>
        have hact : dictContains (IntentParser.aliasIntent kvs) "action"
            = true := by simp [dictContains, haction]
        cases hp : IntentParser.aliasParams
            ((dictGet (IntentParser.ensureParams (IntentParser.aliasIntent kvs))
              "params").getD .jnull) with
        | error e =>
          left
          rw [IntentParser.parseDict_aliasError kvs e hact hp]
          rfl
        | ok pv =>
          rw [IntentParser.parseDict_ok kvs pv hact hp] at h ⊢
          split_ifs at h ⊢ with hu hv
          · left; rfl
          · right
            refine ⟨kvs, rfl, ?_⟩
            rw [IntentParser.kvs3_action kvs pv] at h
            exact h
          · left; rfl
    | jnull =>
      left
      unfold IntentParser.parse
      rw [hj]
      exact IntentParser.parseNonDict_reason _
    | jbool b =>
      left
      unfold IntentParser.parse
      rw [hj]
      exact IntentParser.parseNonDict_reason _
    | jnum n =>
      left
      unfold IntentParser.parse
      rw [hj]
      exact IntentParser.parseNonDict_reason _
    | jstr s =>
      left
      unfold IntentParser.parse
      rw [hj]
      exact IntentParser.parseNonDict_reason _
    | jarr xs =>
      left
      unfold IntentParser.parse
      rw [hj]
      exact IntentParser.parseNonDict_reason _

/-- C6 witness: on the pass-through input supplying action `unknown`
with no reason, the amended disjunction holds through its second
disjunct. -/
theorem C6_witness :
    (dictGet (IntentParser.parse c6input) "reason").isSome = true ∨
    ∃ kvs, jsonLoads (extract_json c6input) = some (.jobj kvs) ∧
      dictGet (IntentParser.aliasIntent kvs) "action" =
        some (.jstr "unknown") :=
  C6_unknown_reason c6input rfl

/-- C10 witness: overwriting an existing path. -/
theorem C10_witness :
    (Database.write_file [("a.txt", "old")] "a.txt" "new").1 = true ∧
    Database.read_file
      (Database.write_file [("a.txt", "old")] "a.txt" "new").2 "a.txt" =
      some "new" :=
  C10_write_upsert [("a.txt", "old")] "a.txt" "old" "new" rfl

end JaxOS
